import Mathlib

/-!
Verification of the EPL Mastermind ingestion and baseline-training code.

The ingestion model is a shallow embedding of `src/ingestion/data_exploration.py`
(`FPLDataLoader`): dataframes become a column list plus a list of records, the
remote CSV host becomes an abstract `RemoteSource`, and fallible fetches return
`Option`.  A record structurally carries the identifier fields (player `name`,
`GW`, `season`) that the reconciler's deduplication key uses, while the live
column set of a table is tracked in its `cols` field; all remaining cells are an
association list `attrs`.  Console logging is out of scope and not modelled.

The trainer model embeds the test-set metrics of
`src/ml/train_baseline.py` (`FPLPredictor`): the SQL filter of `load_data`, and
the directional-accuracy and big-haul-recall computations of `evaluate_model`,
with numpy float arrays modelled as lists of rationals.
-/

namespace EPL

/-- One row of an FPL per-gameweek table.  The identifier cells (player name,
gameweek number, season tag) are structural fields because the reconciler's
deduplication key reads them; every other cell is kept as a (column, value)
association list. -/
structure Record where
  name : String
  gw : Nat
  season : String
  attrs : List (String × String)
deriving DecidableEq, Repr

/-- A pandas DataFrame: the list of live column names plus the rows. -/
structure DataFrame where
  cols : List String
  rows : List Record
deriving DecidableEq, Repr

/-- The remote blob host of `BASE_URL`: a season's merged CSV, a HEAD probe for
an individual gameweek CSV, and the gameweek CSV itself.  `none` / `false`
covers both absence and network failure, as in the `except` handlers of
`load_merged_season`, `check_available_gameweeks` and
`load_individual_gameweek`. -/
structure RemoteSource where
  fetchMerged : String → Option DataFrame
  probe : String → Nat → Bool
  fetchGameweek : String → Nat → Option DataFrame

/-- `COMPLETE_SEASONS` from `data_exploration.py`. -/
def COMPLETE_SEASONS : List String := ["2020-21", "2021-22", "2022-23", "2023-24"]

/-- `PARTIAL_SEASONS` from `data_exploration.py`. -/
def PARTIAL_SEASONS : List String := ["2024-25"]

/-- Pandas column assignment `df[c] = v` appends column `c` when absent. -/
def insertCol (c : String) (cols : List String) : List String :=
  if c ∈ cols then cols else cols ++ [c]

/-- `df['season'] = season`: overwrite the season cell of every row and make
sure the `season` column is present. -/
def setSeasonCol (season : String) (df : DataFrame) : DataFrame :=
  { cols := insertCol "season" df.cols
    rows := df.rows.map fun r => { r with season := season } }

/-- `df['GW'] = gameweek`: overwrite the gameweek cell of every row and make
sure the `GW` column is present. -/
def setGWCol (gw : Nat) (df : DataFrame) : DataFrame :=
  { cols := insertCol "GW" df.cols
    rows := df.rows.map fun r => { r with gw := gw } }

/-- `FPLDataLoader.load_merged_season`: fetch the merged CSV and stamp the
season column; a failed fetch yields `none`. -/
def loadMergedSeason (src : RemoteSource) (season : String) : Option DataFrame :=
  (src.fetchMerged season).map (setSeasonCol season)

/-- `FPLDataLoader.check_available_gameweeks`: probe gameweeks 1..38 and keep
those whose HEAD request succeeds, in increasing order. -/
def checkAvailableGameweeks (src : RemoteSource) (season : String) : List Nat :=
  (List.range' 1 38).filter (fun gw => src.probe season gw)

/-- `FPLDataLoader.load_individual_gameweek`: fetch one gameweek CSV and stamp
the season and GW columns (in that order); a failed fetch yields `none`. -/
def loadIndividualGameweek (src : RemoteSource) (season : String) (gw : Nat) :
    Option DataFrame :=
  (src.fetchGameweek season gw).map (fun df => setGWCol gw (setSeasonCol season df))

/-- The gameweek numbers observed in a merged table
(`merged_df['GW'].unique()`). -/
def mergedGws (df : DataFrame) : List Nat :=
  df.rows.map Record.gw

/-- The gameweeks `reconstruct_complete_season` fetches individually: nothing
when no gameweek probed available; otherwise the probed-available gameweeks
that the merged table does not already cover, or all of them when the merged
fetch failed (`missing_gws` in the source). -/
def individualFetchGws (src : RemoteSource) (season : String) : List Nat :=
  let available := checkAvailableGameweeks src season
  if available = [] then []
  else
    match loadMergedSeason src season with
    | some mdf => available.filter (fun gw => ¬ gw ∈ mergedGws mdf)
    | none => available

/-- `all_dfs` of `reconstruct_complete_season`: the merged table (when fetched)
followed by the successfully fetched individual gameweek tables. -/
def allFetchedTables (src : RemoteSource) (season : String) : List DataFrame :=
  (loadMergedSeason src season).toList ++
    (individualFetchGws src season).filterMap (loadIndividualGameweek src season)

/-- Column intersection `set.intersection(*[set(df.columns) for df in dfs])`,
kept as the first table's column list filtered to the columns every other
table also has. -/
def colsIntersection : List (List String) → List String
  | [] => []
  | l :: ls => l.filter (fun c => ls.all (fun cs => c ∈ cs))

/-- `df[list(common_columns)]` applied to one row: drop the association cells
whose column is not kept.  The structural identifier fields stay in place; the
live column set is tracked by the enclosing table's `cols`. -/
def restrictRow (cols : List String) (r : Record) : Record :=
  { r with attrs := r.attrs.filter (fun p => p.1 ∈ cols) }

/-- The deduplication key of
`drop_duplicates(subset=['name', 'GW', 'season'])`. -/
def key (r : Record) : String × Nat × String :=
  (r.name, r.gw, r.season)

/-- `drop_duplicates(subset=['name', 'GW', 'season'], keep='first')`: keep each
row whose key has not appeared earlier in the list. -/
def dropDupKey : List Record → List Record
  | [] => []
  | r :: rs => r :: dropDupKey (rs.filter (fun s => ¬ key s = key r))
termination_by l => l.length
decreasing_by
  exact Nat.lt_succ_of_le (List.length_filter_le _ _)

/-- The combination step of `reconstruct_complete_season`: intersect the column
sets, concatenate every table restricted to the common columns, and
deduplicate by (name, GW, season) keeping the first occurrence. -/
def combineAll (dfs : List DataFrame) : DataFrame :=
  let common := colsIntersection (dfs.map DataFrame.cols)
  { cols := common
    rows := dropDupKey ((dfs.map (fun df => df.rows.map (restrictRow common))).flatten) }

/-- `FPLDataLoader.reconstruct_complete_season`: return the merged table as-is
when no gameweek is individually available; otherwise combine the merged table
with the fetched individual gameweeks, or `none` when nothing was fetched. -/
def reconstructCompleteSeason (src : RemoteSource) (season : String) :
    Option DataFrame :=
  let merged := loadMergedSeason src season
  if checkAvailableGameweeks src season = [] then merged
  else
    let allDfs := allFetchedTables src season
    if allDfs = [] then none else some (combineAll allDfs)

/-- `all_season_data` of `load_all_historical_data`: per-season tables that
loaded successfully — merged loads for the complete seasons followed by
reconstructions for the partial seasons. -/
def allSeasonTables (src : RemoteSource) : List DataFrame :=
  COMPLETE_SEASONS.filterMap (loadMergedSeason src) ++
    PARTIAL_SEASONS.filterMap (reconstructCompleteSeason src)

/-- `FPLDataLoader.load_all_historical_data`: raise `ValueError` when no season
produced a table, otherwise concatenate every season table restricted to the
columns common to all of them. -/
def loadAllHistoricalData (src : RemoteSource) : Except String DataFrame :=
  let allData := allSeasonTables src
  if allData = [] then .error "No data loaded successfully"
  else
    let common := colsIntersection (allData.map DataFrame.cols)
    .ok { cols := common
          rows := (allData.map (fun df => df.rows.map (restrictRow common))).flatten }

/-- One row of the `mart_ml_features` table, restricted to the columns the
`load_data` query of `train_baseline.py` selects.  The two columns whose
nullability the query inspects are `Option`-valued; numeric cells are
rationals. -/
structure FeatureRow where
  player_name : String
  season : String
  gameweek : Nat
  position_encoded : Int
  next_gw_points : Option ℚ
  avg_points_5gw : Option ℚ
  avg_points_3gw : ℚ
  season_avg_points : ℚ
  consistency_score : ℚ
  blank_rate : ℚ
  big_haul_rate : ℚ
  points_per_90 : ℚ
  games_played_to_date : Int
  team_form : ℚ
  team_attack : ℚ
  team_defense_weakness : ℚ
  position_percentile : ℚ
  avg_position_points : ℚ
  player_value : ℚ
  ownership_pct : ℚ
  is_home : Bool
  improving_form : Bool
  consistent_performer : Bool
  above_position_threshold : Bool
  was_benched : Bool
  played_full_game : Bool
deriving DecidableEq, Repr

/-- The `ORDER BY season, gameweek, player_name` comparator of the
`load_data` query. -/
def featureRowLe (a b : FeatureRow) : Bool :=
  a.season < b.season ||
    (a.season = b.season &&
      (a.gameweek < b.gameweek ||
        (a.gameweek = b.gameweek && a.player_name ≤ b.player_name)))

/-- The `WHERE` clause of the `load_data` query:
`next_gw_points IS NOT NULL AND avg_points_5gw IS NOT NULL AND
games_played_to_date >= 5`. -/
def loadDataKeep (r : FeatureRow) : Bool :=
  r.next_gw_points.isSome && r.avg_points_5gw.isSome && 5 ≤ r.games_played_to_date

/-- `FPLPredictor.load_data`: the rows of `mart_ml_features` passing the
`WHERE` clause, ordered by (season, gameweek, player name). -/
def loadData (table : List FeatureRow) : List FeatureRow :=
  (table.filter loadDataKeep).mergeSort featureRowLe

/-- `np.median`: midpoint of the two central elements of the sorted list for
even length, the central element for odd length.  (The empty case never arises
in the claims; it returns the junk value of out-of-range access.) -/
def npMedian (l : List ℚ) : ℚ :=
  let s := l.mergeSort (fun a b => a ≤ b)
  let n := l.length
  if n % 2 = 1 then s[n / 2]! else (s[n / 2 - 1]! + s[n / 2]!) / 2

/-- `np.percentile(a, 95)` with the default linear interpolation: for sorted
values `s` of length `n`, the value at fractional index `(n-1) * 95/100`. -/
def percentile95 (l : List ℚ) : ℚ :=
  let s := l.mergeSort (fun a b => a ≤ b)
  let h : ℚ := ((l.length : ℚ) - 1) * 95 / 100
  let i := h.floor.toNat
  s[i]! + (h - (i : ℚ)) * (s[min (i + 1) (l.length - 1)]! - s[i]!)

/-- The directional-accuracy metric of `FPLPredictor.evaluate_model`: the mean
agreement between above-own-median classification of the actuals and of the
predictions. -/
def directionalAccuracy (yTest yPred : List ℚ) : ℚ :=
  let actualMedian := npMedian yTest
  let predMedian := npMedian yPred
  let pairs := yTest.zip yPred
  let agree :=
    pairs.filter (fun p => decide (actualMedian < p.1) = decide (predMedian < p.2))
  (agree.length : ℚ) / (pairs.length : ℚ)

/-- The big-haul-recall metric of `FPLPredictor.evaluate_model`: actual ≥10
point outcomes also predicted in the top 5% of predictions, divided by
`max(big_hauls_actual, 1)`. -/
def bigHaulRecall (yTest yPred : List ℚ) : ℚ :=
  let bigHaulsActual := (yTest.filter (fun y => 10 ≤ y)).length
  let threshold := percentile95 yPred
  let overlap :=
    (yTest.zip yPred).filter (fun p => 10 ≤ p.1 && threshold ≤ p.2)
  (overlap.length : ℚ) / (max bigHaulsActual 1 : ℚ)

/-! Concrete sources and tables used to instantiate the theorems. -/

/-- A host with nothing on it: every fetch fails, every probe misses. -/
def srcNone : RemoteSource :=
  { fetchMerged := fun _ => none
    probe := fun _ _ => false
    fetchGameweek := fun _ _ => none }

/-- A row appearing twice in a merged file. -/
def dupRec : Record := { name := "alice", gw := 1, season := "", attrs := [] }

/-- A merged table that itself contains a duplicated (name, GW) row. -/
def dfDup : DataFrame := { cols := ["name", "GW"], rows := [dupRec, dupRec] }

/-- A host holding only a duplicated merged file for season 2024-25 and no
individual gameweek files. -/
def srcDup : RemoteSource :=
  { fetchMerged := fun s => if s = "2024-25" then some dfDup else none
    probe := fun _ _ => false
    fetchGameweek := fun _ _ => none }

/-- What `reconstruct_complete_season` hands back for `srcDup`: the merged
table with the season stamped, duplicate rows intact. -/
def dfDupOut : DataFrame :=
  { cols := ["name", "GW", "season"]
    rows := [{ name := "alice", gw := 1, season := "2024-25", attrs := [] },
             { name := "alice", gw := 1, season := "2024-25", attrs := [] }] }

/-- A merged table holding gameweek 1 for one player. -/
def dfMergedW : DataFrame :=
  { cols := ["name", "GW", "points"]
    rows := [{ name := "alice", gw := 1, season := "", attrs := [("points", "7")] }] }

/-- An individual gameweek table for gameweek 2. -/
def dfGw2 : DataFrame :=
  { cols := ["name", "GW", "points"]
    rows := [{ name := "bob", gw := 0, season := "", attrs := [("points", "3")] }] }

/-- A host with a merged file covering gameweek 1 and an individual file for
gameweek 2 of season 2024-25. -/
def srcMergedPlusGw : RemoteSource :=
  { fetchMerged := fun s => if s = "2024-25" then some dfMergedW else none
    probe := fun _ gw => gw = 2
    fetchGameweek := fun _ gw => if gw = 2 then some dfGw2 else none }

/-- The season-stamped merged table of `srcMergedPlusGw`. -/
def dfMergedWStamped : DataFrame :=
  { cols := ["name", "GW", "points", "season"]
    rows := [{ name := "alice", gw := 1, season := "2024-25", attrs := [("points", "7")] }] }

/-- The reconciled 2024-25 table of `srcMergedPlusGw`. -/
def dfReconW : DataFrame := combineAll (allFetchedTables srcMergedPlusGw "2024-25")

/-- A host with merged files for two complete seasons whose column sets
differ: 2020-21 has a `name` column, 2021-22 does not. -/
def srcTwoSchemas : RemoteSource :=
  { fetchMerged := fun s =>
      if s = "2020-21" then some { cols := ["name", "GW"], rows := [] }
      else if s = "2021-22" then some { cols := ["GW"], rows := [] }
      else none
    probe := fun _ _ => false
    fetchGameweek := fun _ _ => none }

/-- The unified dataset assembled from `srcTwoSchemas`: the `name` join key is
lost in the cross-season column intersection. -/
def dfTwoSchemasOut : DataFrame := { cols := ["GW", "season"], rows := [] }

/-- A host holding exactly one empty merged file, for season 2020-21. -/
def srcOne : RemoteSource :=
  { fetchMerged := fun s =>
      if s = "2020-21" then some { cols := ["name", "GW"], rows := [] } else none
    probe := fun _ _ => false
    fetchGameweek := fun _ _ => none }

/-- The season-stamped merged table of `srcOne`. -/
def dfOneStamped : DataFrame := { cols := ["name", "GW", "season"], rows := [] }

/-- A feature row passing every condition of the `load_data` filter. -/
def rowOk : FeatureRow :=
  { player_name := "dana", season := "2023-24", gameweek := 12
    position_encoded := 2, next_gw_points := some 8, avg_points_5gw := some 4
    avg_points_3gw := 5, season_avg_points := 4, consistency_score := 1
    blank_rate := 0, big_haul_rate := 0, points_per_90 := 4
    games_played_to_date := 11, team_form := 2, team_attack := 1
    team_defense_weakness := 1, position_percentile := 80, avg_position_points := 3
    player_value := 75, ownership_pct := 12, is_home := true
    improving_form := true, consistent_performer := true
    above_position_threshold := true, was_benched := false
    played_full_game := true }

/-- A feature row with a non-null label and six games played, but a null
`avg_points_5gw`. -/
def rowNullAvg : FeatureRow :=
  { player_name := "carol", season := "2024-25", gameweek := 7
    position_encoded := 3, next_gw_points := some 3, avg_points_5gw := none
    avg_points_3gw := 0, season_avg_points := 0, consistency_score := 0
    blank_rate := 0, big_haul_rate := 0, points_per_90 := 0
    games_played_to_date := 6, team_form := 0, team_attack := 0
    team_defense_weakness := 0, position_percentile := 0, avg_position_points := 0
    player_value := 0, ownership_pct := 0, is_home := false
    improving_form := false, consistent_performer := false
    above_position_threshold := false, was_benched := false
    played_full_game := false }

/-! Trainer lemmas and claim theorems. -/

/-- Zipping a list with itself pairs every element with itself. -/
theorem zip_self {α : Type} (l : List α) : l.zip l = l.map (fun a => (a, a)) := by
  induction l with
  | nil => rfl
  | cons a t ih => simp [ih]

/-- C7 (amended): `FPLPredictor.load_data` returns exactly the feature rows
with a non-null `next_gw_points` label, a non-null `avg_points_5gw`, and
`games_played_to_date` at least 5. -/
theorem load_data_returns_exactly_filtered (table : List FeatureRow) (r : FeatureRow) :
    r ∈ loadData table ↔
      r ∈ table ∧ r.next_gw_points.isSome ∧ r.avg_points_5gw.isSome ∧
        5 ≤ r.games_played_to_date := by
  simp [loadData, loadDataKeep, List.mem_filter, and_assoc]

/-- C7 counterexample: a feature row with a non-null label and six games
played — satisfying the claimed filter — is nevertheless dropped by
`load_data`, because its `avg_points_5gw` is null. -/
theorem load_data_claim_counterexample :
    rowNullAvg.next_gw_points.isSome ∧ 5 ≤ rowNullAvg.games_played_to_date ∧
      rowNullAvg ∈ [rowNullAvg] ∧ ¬ rowNullAvg ∈ loadData [rowNullAvg] := by
  refine ⟨rfl, by decide, List.mem_singleton.mpr rfl, ?_⟩
  simp [loadData, loadDataKeep, rowNullAvg]

/-- C8: the big-haul recall of `FPLPredictor.evaluate_model` divides by
`max(big_hauls_actual, 1)`, which is never zero; on a non-empty test set with
no actual outcome of at least 10 points the reported recall is 0. -/
theorem big_haul_recall_no_div_by_zero (yTest yPred : List ℚ)
    (_hne : yTest ≠ []) (h : ∀ a ∈ yTest, ¬ (10 : ℚ) ≤ a) :
    ((max ((yTest.filter (fun y => 10 ≤ y)).length) 1 : ℕ) : ℚ) ≠ 0 ∧
      bigHaulRecall yTest yPred = 0 := by
  constructor
  · exact Nat.cast_ne_zero.mpr (by omega)
  · have hz : ((yTest.zip yPred).filter
        (fun p => 10 ≤ p.1 && percentile95 yPred ≤ p.2)) = [] := by
      apply List.filter_eq_nil_iff.mpr
      rintro ⟨a, b⟩ hp
      have ha : a ∈ yTest := (List.of_mem_zip hp).1
      simp only [Bool.and_eq_true, decide_eq_true_eq, not_and]
      intro h10
      exact absurd h10 (h a ha)
    simp [bigHaulRecall, hz]

/-- C9: the directional accuracy of `FPLPredictor.evaluate_model` on a
non-empty test set whose predictions equal the actuals element-wise is 1. -/
theorem directional_accuracy_perfect (y : List ℚ) (h : y ≠ []) :
    directionalAccuracy y y = 1 := by
  have hlen : ((y.length : ℚ)) ≠ 0 := by
    exact_mod_cast fun hl => h (List.length_eq_zero.mp hl)
  simp only [directionalAccuracy, zip_self]
  rw [List.filter_eq_self.mpr ?_]
  · rw [List.length_map]
    exact div_self hlen
  · intro p hp
    obtain ⟨a, _, rfl⟩ := List.mem_map.mp hp
    simp

/-- Witness for C8 at a concrete two-row test set with no big haul. -/
theorem big_haul_recall_no_div_by_zero_witness :
    bigHaulRecall [(3 : ℚ), 5] [(2 : ℚ), 14] = 0 :=
  (big_haul_recall_no_div_by_zero [3, 5] [2, 14] (by decide) (by decide)).2

/-- Witness for C9 at a concrete two-row test set. -/
theorem directional_accuracy_perfect_witness :
    directionalAccuracy [(1 : ℚ), 4] [(1 : ℚ), 4] = 1 :=
  directional_accuracy_perfect [1, 4] (by decide)

/-! Deduplication lemmas. -/

/-- Every survivor of the deduplication was in the input. -/
theorem mem_of_mem_dropDupKey {a : Record} {l : List Record}
    (h : a ∈ dropDupKey l) : a ∈ l := by
  induction l using dropDupKey.induct with
  | case1 => rw [dropDupKey] at h; exact absurd h (List.not_mem_nil a)
  | case2 r rs ih =>
      rw [dropDupKey] at h
      rcases List.mem_cons.mp h with h | h
      · exact h ▸ List.mem_cons_self r rs
      · exact List.mem_cons_of_mem r (List.mem_of_mem_filter (ih h))

/-- No two survivors of the deduplication share a (name, GW, season) key. -/
theorem dropDupKey_pairwise (l : List Record) :
    (dropDupKey l).Pairwise (fun a b => key a ≠ key b) := by
  induction l using dropDupKey.induct with
  | case1 => simp [dropDupKey]
  | case2 r rs ih =>
      rw [dropDupKey]
      refine List.pairwise_cons.mpr ⟨?_, ih⟩
      intro b hb
      have hbf := mem_of_mem_dropDupKey hb
      have := List.of_mem_filter hbf
      simp only [decide_not, Bool.not_eq_true', decide_eq_false_iff_not] at this
      exact fun hrb => this hrb.symm

/-- Filtering by a weaker predicate does not change the first match of a
stronger one. -/
theorem find?_filter_of_imp (l : List Record) (p q : Record → Bool)
    (h : ∀ a, p a = true → q a = true) : (l.filter q).find? p = l.find? p := by
  induction l with
  | nil => rfl
  | cons a t ih =>
      by_cases hq : q a = true
      · rw [List.filter_cons_of_pos hq]
        by_cases hp : p a = true
        · rw [List.find?_cons_of_pos _ hp, List.find?_cons_of_pos _ hp]
        · rw [List.find?_cons_of_neg _ hp, List.find?_cons_of_neg _ hp, ih]
      · rw [List.filter_cons_of_neg (by simpa using hq), ih,
          List.find?_cons_of_neg _ (fun hpa => hq (h a hpa))]

/-- Deduplication keeps, for every key, exactly the first row bearing it: the
first match for a key is unchanged. -/
theorem dropDupKey_find? (k : String × Nat × String) (l : List Record) :
    (dropDupKey l).find? (fun r => key r = k) = l.find? (fun r => key r = k) := by
  induction l using dropDupKey.induct with
  | case1 => rw [dropDupKey]
  | case2 r rs ih =>
      rw [dropDupKey]
      by_cases hk : key r = k
      · rw [List.find?_cons_of_pos _ (by simpa using hk),
          List.find?_cons_of_pos _ (by simpa using hk)]
      · rw [List.find?_cons_of_neg _ (by simpa using hk),
          List.find?_cons_of_neg _ (by simpa using hk), ih]
        refine find?_filter_of_imp rs _ _ fun a ha => ?_
        simp only [decide_eq_true_eq] at ha
        have hne2 : ¬ key a = key r := fun h2 => hk (h2 ▸ ha)
        simpa using hne2

/-! Structural lemmas about the reconciler. -/

/-- Restricting a row to a column set does not change its deduplication key. -/
theorem key_restrictRow (cols : List String) (r : Record) :
    key (restrictRow cols r) = key r := rfl

/-- On the combine path, the reconciler's output is `combineAll` of the
fetched tables. -/
theorem reconstruct_combine_eq {src : RemoteSource} {season : String} {df : DataFrame}
    (hav : checkAvailableGameweeks src season ≠ [])
    (h : reconstructCompleteSeason src season = some df) :
    df = combineAll (allFetchedTables src season) := by
  simp only [reconstructCompleteSeason] at h
  rw [if_neg hav] at h
  by_cases hall : allFetchedTables src season = []
  · simp [hall] at h
  · rw [if_neg hall] at h
    exact (Option.some.inj h).symm

/-- Every row of a loaded merged table is stamped with the requested season. -/
theorem season_of_mem_loadMerged {src : RemoteSource} {season : String}
    {mdf : DataFrame} {r : Record} (h : loadMergedSeason src season = some mdf)
    (hr : r ∈ mdf.rows) : r.season = season := by
  rw [loadMergedSeason] at h
  cases hf : src.fetchMerged season with
  | none => rw [hf] at h; cases h
  | some d =>
      rw [hf, Option.map_some'] at h
      rw [← Option.some.inj h] at hr
      obtain ⟨r0, _, rfl⟩ := List.mem_map.mp hr
      rfl

/-- Every row of a loaded individual gameweek table is stamped with the
requested season. -/
theorem season_of_mem_loadIndividual {src : RemoteSource} {season : String}
    {gw : Nat} {df : DataFrame} {r : Record}
    (h : loadIndividualGameweek src season gw = some df) (hr : r ∈ df.rows) :
    r.season = season := by
  rw [loadIndividualGameweek] at h
  cases hf : src.fetchGameweek season gw with
  | none => rw [hf] at h; cases h
  | some d =>
      rw [hf, Option.map_some'] at h
      rw [← Option.some.inj h] at hr
      obtain ⟨r1, hr1, rfl⟩ := List.mem_map.mp hr
      obtain ⟨r0, _, rfl⟩ := List.mem_map.mp hr1
      rfl

/-- Every row of every fetched table of a season carries that season tag. -/
theorem season_of_mem_allFetched {src : RemoteSource} {season : String}
    {df : DataFrame} {r : Record} (hdf : df ∈ allFetchedTables src season)
    (hr : r ∈ df.rows) : r.season = season := by
  rw [allFetchedTables] at hdf
  rcases List.mem_append.mp hdf with hdf | hdf
  · cases hm : loadMergedSeason src season with
    | none => rw [hm] at hdf; cases hdf
    | some mdf =>
        rw [hm] at hdf
        rw [List.mem_singleton.mp hdf] at hr
        exact season_of_mem_loadMerged hm hr
  · obtain ⟨gw, _, hfetch⟩ := List.mem_filterMap.mp hdf
    exact season_of_mem_loadIndividual hfetch hr

/-- Every row of the combined table of a season carries that season tag. -/
theorem season_of_mem_combineAll {src : RemoteSource} {season : String} {r : Record}
    (hr : r ∈ (combineAll (allFetchedTables src season)).rows) : r.season = season := by
  simp only [combineAll] at hr
  obtain ⟨l, hl, hrl⟩ := List.mem_flatten.mp (mem_of_mem_dropDupKey hr)
  obtain ⟨df, hdf, rfl⟩ := List.mem_map.mp hl
  obtain ⟨r0, hr0, rfl⟩ := List.mem_map.mp hrl
  show r0.season = season
  exact season_of_mem_allFetched hdf hr0

/-- Restricting rows to a column set does not change which row is the first
match for a key. -/
theorem find?_map_restrict (cols : List String) (l : List Record)
    (k : String × Nat × String) :
    (l.map (restrictRow cols)).find? (fun r => key r = k) =
      (l.find? (fun r => key r = k)).map (restrictRow cols) := by
  rw [List.find?_map]
  simp only [Function.comp_def, key_restrictRow]

/-- With a successful merged fetch, the fetched tables are the merged table
followed by the fetched individual gameweek tables. -/
theorem allFetchedTables_merged_cons {src : RemoteSource} {season : String}
    {mdf : DataFrame} (h : loadMergedSeason src season = some mdf) :
    allFetchedTables src season =
      mdf :: (individualFetchGws src season).filterMap
        (loadIndividualGameweek src season) := by
  rw [allFetchedTables, h]
  rfl

/-- C1 (amended): whenever at least one gameweek is individually available and
the reconciler returns a table, that table has at most one record per
(player name, gameweek) pair, and for every (name, GW, season) key the
surviving row is the first row bearing that key in merged-then-individual
concatenation order. -/
theorem reconciled_table_dedup_invariant (src : RemoteSource) (season : String)
    (df : DataFrame) (hav : checkAvailableGameweeks src season ≠ [])
    (h : reconstructCompleteSeason src season = some df) :
    df.rows.Pairwise (fun a b => ¬ (a.name = b.name ∧ a.gw = b.gw)) ∧
      ∀ k, df.rows.find? (fun r => key r = k) =
        (((allFetchedTables src season).map
            (fun t => t.rows.map (restrictRow df.cols))).flatten).find?
          (fun r => key r = k) := by
  have hdf := reconstruct_combine_eq hav h
  subst hdf
  constructor
  · refine (dropDupKey_pairwise _).imp_of_mem ?_
    intro a b ha hb hkey hab
    have hsa : a.season = season := season_of_mem_combineAll ha
    have hsb : b.season = season := season_of_mem_combineAll hb
    exact hkey (by simp [key, hab.1, hab.2, hsa, hsb])
  · intro k
    simp only [combineAll]
    exact dropDupKey_find? k _

/-- C1 counterexample: on a season whose merged file contains a duplicated
(name, GW) row and where no gameweek is individually available, the
reconciler returns that table with the duplicate intact — the claimed
deduplication invariant fails on the merged-only path. -/
theorem reconciled_table_dedup_counterexample :
    reconstructCompleteSeason srcDup "2024-25" = some dfDupOut ∧
      ¬ dfDupOut.rows.Pairwise (fun a b => ¬ (a.name = b.name ∧ a.gw = b.gw)) := by
  constructor
  · rfl
  · intro hpw
    exact List.rel_of_pairwise_cons hpw (List.mem_singleton.mpr rfl) ⟨rfl, rfl⟩

/-- C2: on the combine path, for any (name, GW, season) key present in the
merged table, the surviving row of the reconciled table is the merged table's
first row with that key (restricted to the common columns) — the merged rows
precede all individual-gameweek rows in concatenation order. -/
theorem merged_row_wins_dedup (src : RemoteSource) (season : String)
    (mdf df : DataFrame) (k : String × Nat × String)
    (hm : loadMergedSeason src season = some mdf)
    (hav : checkAvailableGameweeks src season ≠ [])
    (h : reconstructCompleteSeason src season = some df)
    (hk : (mdf.rows.find? (fun r => key r = k)).isSome) :
    df.rows.find? (fun r => key r = k) =
      (mdf.rows.find? (fun r => key r = k)).map (restrictRow df.cols) := by
  have hdf := reconstruct_combine_eq hav h
  subst hdf
  rw [allFetchedTables_merged_cons hm]
  simp only [combineAll, List.map_cons, List.flatten_cons]
  rw [dropDupKey_find?, List.find?_append, find?_map_restrict]
  obtain ⟨r0, hr0⟩ := Option.isSome_iff_exists.mp hk
  rw [hr0]
  rfl

/-- C3: the gameweeks fetched individually are exactly the probed-available
gameweeks not observed in the merged table (all of them when the merged fetch
failed); and individual fetch failures never make a season with a merged
table fail. -/
theorem individually_fetched_gameweeks_spec (src : RemoteSource) (season : String) :
    (∀ gw, gw ∈ individualFetchGws src season ↔
      gw ∈ checkAvailableGameweeks src season ∧
        ∀ mdf, loadMergedSeason src season = some mdf → ¬ gw ∈ mergedGws mdf)
    ∧ ((loadMergedSeason src season).isSome →
        (reconstructCompleteSeason src season).isSome) := by
  constructor
  · intro gw
    rw [individualFetchGws]
    by_cases hav : checkAvailableGameweeks src season = []
    · simp [hav]
    · rw [if_neg hav]
      cases hm : loadMergedSeason src season with
      | none => simp [hm]
      | some mdf => simp [hm, List.mem_filter]
  · intro hsome
    simp only [reconstructCompleteSeason]
    by_cases hav : checkAvailableGameweeks src season = []
    · simpa [hav] using hsome
    · rw [if_neg hav]
      have hne : allFetchedTables src season ≠ [] := by
        rw [allFetchedTables]
        obtain ⟨mdf, hm⟩ := Option.isSome_iff_exists.mp hsome
        simp [hm]
      simp [hne]

/-! Column-set lemmas for the assembler. -/

/-- Column assignment ensures the assigned column is present. -/
theorem mem_insertCol_self (c : String) (cols : List String) : c ∈ insertCol c cols := by
  rw [insertCol]
  split
  · assumption
  · exact List.mem_append_right _ (List.mem_singleton.mpr rfl)

/-- Column assignment keeps every existing column. -/
theorem mem_insertCol_of_mem (c c' : String) {cols : List String} (h : c ∈ cols) :
    c ∈ insertCol c' cols := by
  rw [insertCol]
  split
  · exact h
  · exact List.mem_append_left _ h

/-- Membership in a non-empty column intersection is membership in every
column list. -/
theorem mem_colsIntersection {L : List (List String)} (hL : L ≠ []) (c : String) :
    c ∈ colsIntersection L ↔ ∀ l ∈ L, c ∈ l := by
  cases L with
  | nil => exact absurd rfl hL
  | cons l ls =>
      rw [colsIntersection]
      simp only [List.mem_filter, List.all_eq_true, decide_eq_true_eq, List.mem_cons]
      constructor
      · rintro ⟨h1, h2⟩ x hx
        rcases hx with rfl | hx
        exacts [h1, h2 x hx]
      · intro hx
        exact ⟨hx l (Or.inl rfl), fun x h => hx x (Or.inr h)⟩

/-- A loaded merged table always has a `season` column. -/
theorem season_mem_loadMerged_cols {src : RemoteSource} {season : String}
    {mdf : DataFrame} (h : loadMergedSeason src season = some mdf) :
    "season" ∈ mdf.cols := by
  rw [loadMergedSeason] at h
  cases hf : src.fetchMerged season with
  | none => rw [hf] at h; cases h
  | some d =>
      rw [hf, Option.map_some'] at h
      rw [← Option.some.inj h]
      exact mem_insertCol_self _ _

/-- A loaded individual gameweek table always has a `season` column. -/
theorem season_mem_loadIndividual_cols {src : RemoteSource} {season : String}
    {gw : Nat} {df : DataFrame} (h : loadIndividualGameweek src season gw = some df) :
    "season" ∈ df.cols := by
  rw [loadIndividualGameweek] at h
  cases hf : src.fetchGameweek season gw with
  | none => rw [hf] at h; cases h
  | some d =>
      rw [hf, Option.map_some'] at h
      rw [← Option.some.inj h]
      exact mem_insertCol_of_mem _ _ (mem_insertCol_self _ _)

/-- Every fetched table of a season has a `season` column. -/
theorem season_mem_allFetched_cols {src : RemoteSource} {season : String}
    {df : DataFrame} (h : df ∈ allFetchedTables src season) : "season" ∈ df.cols := by
  rw [allFetchedTables] at h
  rcases List.mem_append.mp h with h | h
  · cases hm : loadMergedSeason src season with
    | none => rw [hm] at h; cases h
    | some mdf =>
        rw [hm] at h
        rw [List.mem_singleton.mp h]
        exact season_mem_loadMerged_cols hm
  · obtain ⟨gw, _, hf⟩ := List.mem_filterMap.mp h
    exact season_mem_loadIndividual_cols hf

/-- Every reconciled season table has a `season` column. -/
theorem season_mem_reconstruct_cols {src : RemoteSource} {season : String}
    {df : DataFrame} (h : reconstructCompleteSeason src season = some df) :
    "season" ∈ df.cols := by
  by_cases hav : checkAvailableGameweeks src season = []
  · simp only [reconstructCompleteSeason, if_pos hav] at h
    exact season_mem_loadMerged_cols h
  · have hne : allFetchedTables src season ≠ [] := by
      intro he
      simp only [reconstructCompleteSeason, if_neg hav] at h
      rw [if_pos he] at h
      cases h
    have hdf := reconstruct_combine_eq hav h
    subst hdf
    show "season" ∈ (combineAll (allFetchedTables src season)).cols
    simp only [combineAll]
    rw [mem_colsIntersection (fun hm => hne (List.map_eq_nil_iff.mp hm))]
    intro l hl
    obtain ⟨t, ht, rfl⟩ := List.mem_map.mp hl
    exact season_mem_allFetched_cols ht

/-- Every per-season table collected by the assembler has a `season` column. -/
theorem season_mem_allSeasonTables_cols {src : RemoteSource} {df : DataFrame}
    (h : df ∈ allSeasonTables src) : "season" ∈ df.cols := by
  rw [allSeasonTables] at h
  rcases List.mem_append.mp h with h | h
  · obtain ⟨s, _, hf⟩ := List.mem_filterMap.mp h
    exact season_mem_loadMerged_cols hf
  · obtain ⟨s, _, hf⟩ := List.mem_filterMap.mp h
    exact season_mem_reconstruct_cols hf

/-- C4 (amended): the unified dataset's column set is exactly the intersection
of the per-season column sets, and it always contains the `season` column
(hence is non-empty); a join key such as the player name survives only when
every season table carries it. -/
theorem unified_columns_intersection (src : RemoteSource) (df : DataFrame)
    (h : loadAllHistoricalData src = Except.ok df) :
    (∀ c, c ∈ df.cols ↔ ∀ t ∈ allSeasonTables src, c ∈ t.cols) ∧
      "season" ∈ df.cols := by
  have hne : allSeasonTables src ≠ [] := by
    intro he
    simp only [loadAllHistoricalData, if_pos he] at h
    cases h
  have hdf : df.cols = colsIntersection ((allSeasonTables src).map DataFrame.cols) := by
    simp only [loadAllHistoricalData, if_neg hne] at h
    rw [← Except.ok.inj h]
  have hmap : (allSeasonTables src).map DataFrame.cols ≠ [] :=
    fun hm => hne (List.map_eq_nil_iff.mp hm)
  constructor
  · intro c
    rw [hdf, mem_colsIntersection hmap]
    constructor
    · intro hc t ht
      exact hc t.cols (List.mem_map_of_mem _ ht)
    · intro hc l hl
      obtain ⟨t, ht, rfl⟩ := List.mem_map.mp hl
      exact hc t ht
  · rw [hdf, mem_colsIntersection hmap]
    intro l hl
    obtain ⟨t, ht, rfl⟩ := List.mem_map.mp hl
    exact season_mem_allSeasonTables_cols ht

/-- C4 counterexample: with two seasons sharing the key columns `GW` and
`season` but only one carrying `name`, the unified dataset's columns lose the
`name` join key, refuting the claim that one shared key column guarantees all
join keys survive. -/
theorem unified_columns_counterexample :
    loadAllHistoricalData srcTwoSchemas = Except.ok dfTwoSchemasOut ∧
      "GW" ∈ dfTwoSchemasOut.cols ∧ "season" ∈ dfTwoSchemasOut.cols ∧
        ¬ "name" ∈ dfTwoSchemasOut.cols := by
  exact ⟨rfl, by decide, by decide, by decide⟩

/-- C5: the assembler reports its hard error exactly when no configured
season produced a table, and returns a unified dataset whenever at least one
season produced one. -/
theorem assembler_fails_iff_no_season (src : RemoteSource) :
    ((∃ e, loadAllHistoricalData src = Except.error e) ↔ allSeasonTables src = [])
    ∧ (allSeasonTables src ≠ [] → ∃ df, loadAllHistoricalData src = Except.ok df)
    ∧ (allSeasonTables src = [] ↔
        (∀ s ∈ COMPLETE_SEASONS, loadMergedSeason src s = none) ∧
          ∀ s ∈ PARTIAL_SEASONS, reconstructCompleteSeason src s = none) := by
  refine ⟨⟨?_, ?_⟩, ?_, ?_⟩
  · rintro ⟨e, he⟩
    by_contra hne
    simp only [loadAllHistoricalData, if_neg hne] at he
    cases he
  · intro he
    exact ⟨"No data loaded successfully", by simp [loadAllHistoricalData, he]⟩
  · intro hne
    simp only [loadAllHistoricalData, if_neg hne]
    exact ⟨_, rfl⟩
  · simp [allSeasonTables, List.filterMap_eq_nil_iff]

/-- C6: a season whose merged fetch fails and whose probe finds no individual
gameweek yields no output. -/
theorem empty_season_yields_none (src : RemoteSource) (season : String)
    (hm : src.fetchMerged season = none)
    (hav : checkAvailableGameweeks src season = []) :
    reconstructCompleteSeason src season = none := by
  simp [reconstructCompleteSeason, hav, loadMergedSeason, hm]

/-- C10: when the merged fetch succeeds and no gameweek is individually
available, the reconciler returns the merged table itself — no column
restriction and no deduplication is applied. -/
theorem merged_only_returned_unchanged (src : RemoteSource) (season : String)
    (mdf : DataFrame) (hm : loadMergedSeason src season = some mdf)
    (hav : checkAvailableGameweeks src season = []) :
    reconstructCompleteSeason src season = some mdf := by
  simp [reconstructCompleteSeason, hav, hm]

/-! Witnesses. -/

/-- Witness for C1 on a host with one merged and one individual gameweek. -/
theorem reconciled_table_dedup_invariant_witness :
    dfReconW.rows.Pairwise (fun a b => ¬ (a.name = b.name ∧ a.gw = b.gw)) :=
  (reconciled_table_dedup_invariant srcMergedPlusGw "2024-25" dfReconW
    (by decide) (by rfl)).1

/-- Witness for C2: the merged row for key (alice, 1, 2024-25) survives. -/
theorem merged_row_wins_dedup_witness :
    dfReconW.rows.find? (fun r => key r = ("alice", 1, "2024-25")) =
      (dfMergedWStamped.rows.find? (fun r => key r = ("alice", 1, "2024-25"))).map
        (restrictRow dfReconW.cols) :=
  merged_row_wins_dedup srcMergedPlusGw "2024-25" dfMergedWStamped dfReconW
    ("alice", 1, "2024-25") (by rfl) (by decide) (by rfl) (by decide)

/-- Witness for C3: gameweek 2 is fetched and the season succeeds. -/
theorem individually_fetched_gameweeks_spec_witness :
    (reconstructCompleteSeason srcMergedPlusGw "2024-25").isSome ∧
      2 ∈ individualFetchGws srcMergedPlusGw "2024-25" :=
  ⟨(individually_fetched_gameweeks_spec srcMergedPlusGw "2024-25").2 (by rfl),
   ((individually_fetched_gameweeks_spec srcMergedPlusGw "2024-25").1 2).mpr
     ⟨by decide, fun mdf hm => by
        rw [show loadMergedSeason srcMergedPlusGw "2024-25" = some dfMergedWStamped
          from rfl] at hm
        rw [← Option.some.inj hm]
        decide⟩⟩

/-- Witness for C4 on a one-season host. -/
theorem unified_columns_intersection_witness : "season" ∈ dfOneStamped.cols :=
  (unified_columns_intersection srcOne dfOneStamped (by rfl)).2

/-- Witness for C5 on an empty host. -/
theorem assembler_fails_iff_no_season_witness :
    ∃ e, loadAllHistoricalData srcNone = Except.error e :=
  (assembler_fails_iff_no_season srcNone).1.mpr (by rfl)

/-- Witness for C6 on an empty host. -/
theorem empty_season_yields_none_witness :
    reconstructCompleteSeason srcNone "2024-25" = none :=
  empty_season_yields_none srcNone "2024-25" rfl (by rfl)

/-- Witness for C7: a fully valid feature row is returned. -/
theorem load_data_returns_exactly_filtered_witness :
    rowOk ∈ loadData [rowOk] :=
  (load_data_returns_exactly_filtered [rowOk] rowOk).mpr
    ⟨List.mem_singleton.mpr rfl, by decide, by decide, by decide⟩

/-- Witness for C10: the stamped merged table comes back untouched. -/
theorem merged_only_returned_unchanged_witness :
    reconstructCompleteSeason srcOne "2020-21" = some dfOneStamped :=
  merged_only_returned_unchanged srcOne "2020-21" dfOneStamped (by rfl) (by rfl)

end EPL
